import Mathlib

/-!
Shallow embedding of `src/meetvoice-api/src/main.rs`, a read-only article
query API over a MongoDB collection, with two handlers: `list_articles`
(GET /articles) and `get_article` (GET /articles/:slug).

Modelling conventions:
* Rust `u64` values are `Nat` (with explicit `% 2 ^ 64` where wrapping
  arithmetic matters) and `i64` values are `Int`.
* MongoDB is modelled as a `StoreState`: a list of documents plus optional
  injected error texts for each of the three store operations the handlers
  perform (`count_documents`, `find`/collect, `find_one`).
* The MongoDB `$regex` operator with `$options: "i"` is modelled for the
  pattern subset consisting of literal characters and the `.` wildcard
  (unanchored, case-insensitive search), per PCRE semantics.
* MongoDB `find` semantics for the options built by the handler: sort by
  the sort document, skip, limit (a limit of 0 means no limit and a
  negative limit returns up to the absolute value, per the MongoDB
  documentation), then projection.
-/

namespace MeetVoice

/-- The `Article` document struct from the source (`ObjectId` modelled as `Nat`). -/
structure Article where
  id : Option Nat
  slug : String
  titre : String
  petit_description : Option String
  contenu : Option String
  theme : Option String
  categorie : Option String
  photo : Option String
  photo_description : Option String
  photo_highlight : Option String
  date_publication : Option String
  seo_title : Option String
  seo_description : Option String
  seo_keywords : Option (List String)
deriving Repr, DecidableEq

/-- The `ArticleListItem` struct: the seven summary fields serialized for list views. -/
structure ArticleListItem where
  slug : String
  titre : String
  petit_description : Option String
  theme : Option String
  categorie : Option String
  photo : Option String
  date_publication : Option String
deriving Repr, DecidableEq

/-- The `ListQuery` query-parameter struct: `page : Option<u64>`, `limit : Option<i64>`. -/
structure ListQuery where
  page : Option Nat
  limit : Option Int
  categorie : Option String
  theme : Option String
deriving Repr, DecidableEq

/-- The `ListResponse` envelope struct. -/
structure ListResponse where
  articles : List ArticleListItem
  total : Nat
  page : Nat
  limit : Int
deriving Repr, DecidableEq

/-- The expression `params.page.unwrap_or(1).max(1)` from the source. -/
def effectivePage (p : Option Nat) : Nat := max (p.getD 1) 1

/-- The expression `params.limit.unwrap_or(10).min(50)` from the source. -/
def effectiveLimit (l : Option Int) : Int := min (l.getD 10) 50

/-- Rust `i64 as u64`: the value taken modulo `2 ^ 64`, as an unsigned integer. -/
def u64cast (i : Int) : Nat := (i % (2 ^ 64)).toNat

/-- The expression `(page - 1) * limit as u64` from the source: `u64` arithmetic, wrapping
modulo `2 ^ 64` (release-build semantics for the multiplication). -/
def computeSkip (page : Nat) (limit : Int) : Nat :=
  ((page - 1) * u64cast limit) % (2 ^ 64)

/-- Case-insensitive single-character match for the modelled `$regex` subset:
the pattern character `.` matches any character, anything else matches itself
up to case. -/
def charMatchI (p c : Char) : Bool := p = '.' || p.toLower = c.toLower

/-- Match the whole pattern starting at the head of the text. -/
def matchHere : List Char → List Char → Bool
  | [], _ => true
  | _ :: _, [] => false
  | p :: ps, c :: cs => charMatchI p c && matchHere ps cs

/-- MongoDB `$regex` with `$options: "i"` (modelled for patterns of literal
characters and the `.` wildcard): unanchored case-insensitive search. -/
def regexSearchI (pat : List Char) : List Char → Bool
  | [] => matchHere pat []
  | c :: cs => matchHere pat (c :: cs) || regexSearchI pat cs

/-- Case-insensitive "starts with": every pattern character equals the
corresponding text character up to case. -/
def startsWithI : List Char → List Char → Bool
  | [], _ => true
  | _ :: _, [] => false
  | p :: ps, c :: cs => p.toLower = c.toLower && startsWithI ps cs

/-- Case-insensitive substring containment (the spec's reading of the theme clause). -/
def containsI (pat : List Char) : List Char → Bool
  | [] => startsWithI pat []
  | c :: cs => startsWithI pat (c :: cs) || containsI pat cs

/-- The characters PCRE treats specially outside a character class. -/
def pcreMeta : List Char :=
  ['.', '^', '$', '*', '+', '?', '(', ')', '[', ']', '\x7b', '\x7d', '|', '\\']

/-- The filter document built by `list_articles`: an optional exact-match
clause on `categorie` and an optional case-insensitive `$regex` clause on
`theme` (both present means both must hold). -/
structure Filter where
  categorie : Option String
  themeRegexI : Option String
deriving Repr, DecidableEq

/-- The filter `list_articles` builds from the query parameters. -/
def mkFilter (params : ListQuery) : Filter :=
  { categorie := params.categorie, themeRegexI := params.theme }

/-- MongoDB evaluation of the filter document on one article: an exact-match
clause requires the field to equal the string (a missing field does not
match), and a `$regex` clause requires the field to be a string matched by
the pattern (a missing field does not match). -/
def matchesFilter (f : Filter) (a : Article) : Bool :=
  (match f.categorie with
   | none => true
   | some c => a.categorie == some c) &&
  (match f.themeRegexI with
   | none => true
   | some pat =>
     match a.theme with
     | none => false
     | some t => regexSearchI pat.toList t.toList)

/-- Lexicographic comparison of two strings as lists of characters. -/
def charListLe : List Char → List Char → Bool
  | [], _ => true
  | _ :: _, [] => false
  | a :: as, b :: bs => if a = b then charListLe as bs else decide (a < b)

/-- Order on optional publication dates: a missing date sorts below every
string (MongoDB: null/missing sorts before strings, so it comes last under
a descending sort). -/
def optStrLe : Option String → Option String → Bool
  | none, _ => true
  | some _, none => false
  | some s, some t => charListLe s.toList t.toList

/-- Descending publication-date order used by the sort document
`{ date_publication: -1 }`: `a` may precede `b` iff `b`'s date is ≤ `a`'s. -/
def dateDescR (a b : Article) : Prop :=
  optStrLe b.date_publication a.date_publication = true

instance : DecidableRel dateDescR := fun a b =>
  inferInstanceAs (Decidable (optStrLe b.date_publication a.date_publication = true))

/-- The find options built by `list_articles`: sort by publication date
descending, skip, limit, and the seven-field summary projection. -/
structure FindOpts where
  sortDatePubDesc : Bool
  skip : Nat
  limit : Int
  projSummary : Bool
deriving Repr, DecidableEq

/-- MongoDB applying the summary projection `{slug: 1, titre: 1,
petit_description: 1, theme: 1, categorie: 1, photo: 1, date_publication: 1}`:
the listed fields and the implicitly included `_id` survive, every other
field is absent from the returned document. -/
def projectSummary (a : Article) : Article :=
  { a with contenu := none, photo_description := none, photo_highlight := none,
           seo_title := none, seo_description := none, seo_keywords := none }

/-- MongoDB `limit`: 0 means no limit, a negative value returns up to its
absolute value (single batch). -/
def applyLimit (limit : Int) (l : List Article) : List Article :=
  if limit = 0 then l else l.take limit.natAbs

/-- In-memory store: the collection's documents plus optional injected error
texts for the three store operations (`find_err` also covers a failure while
collecting the cursor). -/
structure StoreState where
  docs : List Article
  countErr : Option String
  findErr : Option String
  findOneErr : Option String

/-- The call `collection.count_documents(filter)`: the number of matching documents. -/
def countDocuments (st : StoreState) (f : Filter) : Except String Nat :=
  match st.countErr with
  | some e => .error e
  | none => .ok (st.docs.countP (fun a => matchesFilter f a))

/-- The call `collection.find(filter).with_options(options)` followed by collecting the
cursor: filter, sort, skip, limit, project. -/
def findDocs (st : StoreState) (f : Filter) (opts : FindOpts) :
    Except String (List Article) :=
  match st.findErr with
  | some e => .error e
  | none =>
    let matched := st.docs.filter (fun a => matchesFilter f a)
    let sorted := if opts.sortDatePubDesc then List.insertionSort dateDescR matched
                  else matched
    let paged := applyLimit opts.limit (sorted.drop opts.skip)
    .ok (if opts.projSummary then paged.map projectSummary else paged)

/-- The call `collection.find_one` with the slug-equality document: the first document whose
`slug` field equals the given string, if any. -/
def findOneBySlug (st : StoreState) (slug : String) :
    Except String (Option Article) :=
  match st.findOneErr with
  | some e => .error e
  | none => .ok (st.docs.find? (fun a => a.slug == slug))

/-- The struct-to-struct mapping from a fetched `Article` to an
`ArticleListItem` in `list_articles`. -/
def toListItem (a : Article) : ArticleListItem :=
  { slug := a.slug, titre := a.titre, petit_description := a.petit_description,
    theme := a.theme, categorie := a.categorie, photo := a.photo,
    date_publication := a.date_publication }

/-- The `list_articles` handler: resolve page and limit, build the filter,
count, fetch one sorted/paged/projected page, and shape the envelope. A store
failure surfaces as `(500, error text)`. -/
def list_articles (st : StoreState) (params : ListQuery) :
    Except (Nat × String) ListResponse :=
  let page := effectivePage params.page
  let limit := effectiveLimit params.limit
  let skip := computeSkip page limit
  let filter := mkFilter params
  match countDocuments st filter with
  | .error e => .error (500, e)
  | .ok total =>
    match findDocs st filter
        { sortDatePubDesc := true, skip := skip, limit := limit,
          projSummary := true } with
    | .error e => .error (500, e)
    | .ok articles =>
      .ok { articles := articles.map toListItem, total := total,
            page := page, limit := limit }

/-- A single-quote character, written by code point. -/
def squote : String := String.singleton (Char.ofNat 39)

/-- The 404 body text `format!("Article '{}' not found", slug)`. -/
def notFoundMsg (slug : String) : String :=
  "Article " ++ squote ++ slug ++ squote ++ " not found"

/-- The `get_article` handler: exact-slug lookup with no projection; a store
failure surfaces as `(500, error text)`, no match as `(404, message naming
the slug)`. -/
def get_article (st : StoreState) (slug : String) :
    Except (Nat × String) Article :=
  match findOneBySlug st slug with
  | .error e => .error (500, e)
  | .ok (some a) => .ok a
  | .ok none => .error (404, notFoundMsg slug)

/-! ### Concrete documents and stores used to instantiate the theorems -/

/-- Build an article with the given slug, title, theme, category and
publication date, all other optional fields absent. -/
def mkArticle (slug titre : String) (theme categorie date : Option String) :
    Article :=
  { id := none, slug := slug, titre := titre, petit_description := none,
    contenu := none, theme := theme, categorie := categorie, photo := none,
    photo_description := none, photo_highlight := none, date_publication := date,
    seo_title := none, seo_description := none, seo_keywords := none }

def artA : Article := mkArticle "a" "A" (some "rock") (some "music") (some "2024-01-01")

def artB : Article := mkArticle "b" "B" (some "jazz") (some "music") (some "2024-02-01")

def artC : Article := mkArticle "c" "C" none none none

/-- A store holding three documents and reporting no errors. -/
def st3 : StoreState :=
  { docs := [artA, artB, artC], countErr := none, findErr := none, findOneErr := none }

/-- An empty, error-free store. -/
def stEmpty : StoreState :=
  { docs := [], countErr := none, findErr := none, findOneErr := none }

/-- A store whose operations fail. -/
def stErr : StoreState :=
  { docs := [], countErr := some "boom", findErr := some "lost", findOneErr := some "crash" }

/-- A query with every parameter absent. -/
def qNone : ListQuery := { page := none, limit := none, categorie := none, theme := none }

/-- A document whose theme is the literal string "abc". -/
def artAbc : Article := mkArticle "x" "X" (some "abc") none none

/-- A store holding only `artAbc`, reporting no errors. -/
def stAbc : StoreState :=
  { docs := [artAbc], countErr := none, findErr := none, findOneErr := none }

/-- The JSON values that can appear in a serialized `ArticleListItem` field. -/
inductive Json where
  | null : Json
  | str : String → Json
deriving Repr, DecidableEq

/-- Serde serialization of an `Option<String>` field with no attributes:
`None` becomes JSON null. -/
def optJson : Option String → Json
  | none => Json.null
  | some s => Json.str s

/-- Serde serialization of `ArticleListItem` (`derive(Serialize)`, no field
attributes): exactly the seven declared fields, in declaration order. -/
def serializeListItem (it : ArticleListItem) : List (String × Json) :=
  [("slug", Json.str it.slug), ("titre", Json.str it.titre),
   ("petit_description", optJson it.petit_description),
   ("theme", optJson it.theme), ("categorie", optJson it.categorie),
   ("photo", optJson it.photo),
   ("date_publication", optJson it.date_publication)]

/-- The response `list_articles` produces on `st3` with no parameters:
all three documents, most recent first, the undated one last. -/
def resp3All : ListResponse :=
  { articles := [toListItem artB, toListItem artA, toListItem artC],
    total := 3, page := 1, limit := 10 }

/-! ### Handler elimination lemmas -/

/-- The documents the store's filter keeps, for the filter `list_articles` builds. -/
def filteredDocs (st : StoreState) (params : ListQuery) : List Article :=
  st.docs.filter (fun a => matchesFilter (mkFilter params) a)

/-- The page of documents the store returns to `list_articles`: the filtered
documents sorted by publication date descending, with skip and limit applied. -/
def pagedDocs (st : StoreState) (params : ListQuery) : List Article :=
  applyLimit (effectiveLimit params.limit)
    ((List.insertionSort dateDescR (filteredDocs st params)).drop
      (computeSkip (effectivePage params.page) (effectiveLimit params.limit)))

theorem list_articles_ok_iff (st : StoreState) (params : ListQuery)
    (resp : ListResponse) :
    list_articles st params = .ok resp ↔
      st.countErr = none ∧ st.findErr = none ∧
      resp = { articles := ((pagedDocs st params).map projectSummary).map toListItem,
               total := st.docs.countP (fun a => matchesFilter (mkFilter params) a),
               page := effectivePage params.page,
               limit := effectiveLimit params.limit } := by
  unfold list_articles countDocuments findDocs pagedDocs filteredDocs
  cases st.countErr <;> cases st.findErr <;> simp [eq_comm]

theorem list_articles_error_iff (st : StoreState) (params : ListQuery)
    (e : Nat × String) :
    list_articles st params = .error e ↔
      e.1 = 500 ∧
        (st.countErr = some e.2 ∨ (st.countErr = none ∧ st.findErr = some e.2)) := by
  unfold list_articles countDocuments findDocs
  cases e with
  | mk s m =>
    cases st.countErr <;> cases st.findErr <;> simp [eq_comm, and_comm]

/-! ### Order lemmas for the publication-date sort -/

theorem charListLe_total : ∀ as bs : List Char,
    charListLe as bs = true ∨ charListLe bs as = true
  | [], _ => Or.inl rfl
  | _ :: _, [] => Or.inr rfl
  | a :: as, b :: bs => by
    by_cases h : a = b
    · subst h
      simpa [charListLe] using charListLe_total as bs
    · rcases lt_or_gt_of_ne h with hlt | hgt
      · exact Or.inl (by simp [charListLe, h, hlt])
      · exact Or.inr (by simp [charListLe, Ne.symm h, hgt])

theorem charListLe_trans : ∀ {as bs cs : List Char},
    charListLe as bs = true → charListLe bs cs = true → charListLe as cs = true
  | [], _, _, _, _ => rfl
  | _ :: _, [], _, h, _ => by simp [charListLe] at h
  | _ :: _, _ :: _, [], _, h => by simp [charListLe] at h
  | a :: as, b :: bs, c :: cs, h1, h2 => by
    by_cases hab : a = b <;> by_cases hbc : b = c
    · subst hab; subst hbc
      simp only [charListLe, if_pos rfl] at h1 h2 ⊢
      exact charListLe_trans h1 h2
    · subst hab
      simp only [charListLe, if_pos rfl, if_neg hbc, decide_eq_true_eq] at h1 h2 ⊢
      exact h2
    · subst hbc
      simp only [charListLe, if_pos rfl, if_neg hab, decide_eq_true_eq] at h1 h2 ⊢
      exact h1
    · simp only [charListLe, if_neg hab, if_neg hbc, decide_eq_true_eq] at h1 h2
      have hac : a < c := lt_trans h1 h2
      simp [charListLe, ne_of_lt hac, hac]

theorem optStrLe_total (x y : Option String) :
    optStrLe x y = true ∨ optStrLe y x = true := by
  cases x with
  | none => exact Or.inl rfl
  | some s =>
    cases y with
    | none => exact Or.inr rfl
    | some t => exact charListLe_total s.toList t.toList

theorem optStrLe_trans {x y z : Option String} (h1 : optStrLe x y = true)
    (h2 : optStrLe y z = true) : optStrLe x z = true := by
  cases x with
  | none => rfl
  | some s =>
    cases y with
    | none => simp [optStrLe] at h1
    | some t =>
      cases z with
      | none => simp [optStrLe] at h2
      | some u => exact charListLe_trans h1 h2

instance : IsTotal Article dateDescR :=
  ⟨fun a b => optStrLe_total b.date_publication a.date_publication⟩

instance : IsTrans Article dateDescR :=
  ⟨fun _ _ _ hab hbc => optStrLe_trans hbc hab⟩

/-! ### Membership in the returned page -/

theorem applyLimit_subset (lim : Int) (l : List Article) : applyLimit lim l ⊆ l := by
  unfold applyLimit
  split
  · exact fun _ h => h
  · exact List.take_subset _ _

theorem mem_pagedDocs {st : StoreState} {params : ListQuery} {a : Article}
    (h : a ∈ pagedDocs st params) :
    a ∈ st.docs ∧ matchesFilter (mkFilter params) a = true := by
  have h1 : a ∈ (List.insertionSort dateDescR (filteredDocs st params)).drop
      (computeSkip (effectivePage params.page) (effectiveLimit params.limit)) :=
    applyLimit_subset _ _ h
  have h2 : a ∈ List.insertionSort dateDescR (filteredDocs st params) :=
    List.drop_subset _ _ h1
  have h3 : a ∈ filteredDocs st params := (List.mem_insertionSort _).mp h2
  exact ⟨List.mem_of_mem_filter h3, List.of_mem_filter h3⟩

/-! ### The modelled regex versus case-insensitive substring containment -/

theorem matchHere_eq_startsWithI {ps : List Char} (h : '.' ∉ ps) :
    ∀ cs : List Char, matchHere ps cs = startsWithI ps cs := by
  induction ps with
  | nil => intro cs; cases cs <;> rfl
  | cons p ps ih =>
    intro cs
    have hp : ¬(p = '.') := fun hc => h (hc ▸ List.mem_cons_self p ps)
    have h' : '.' ∉ ps := fun hc => h (List.mem_cons_of_mem p hc)
    cases cs with
    | nil => rfl
    | cons c cs => simp [matchHere, startsWithI, charMatchI, hp, ih h']

theorem regexSearchI_eq_containsI {ps : List Char} (h : '.' ∉ ps) :
    ∀ cs : List Char, regexSearchI ps cs = containsI ps cs := by
  intro cs
  induction cs with
  | nil => simpa [regexSearchI, containsI] using matchHere_eq_startsWithI h []
  | cons c cs ih =>
    simp [regexSearchI, containsI, matchHere_eq_startsWithI h, ih]

/-- A helper for slug lookup: `find?` returns the unique element satisfying
the predicate when there is exactly one. -/
theorem find?_unique {α : Type} {p : α → Bool} {l : List α} {a : α}
    (ha : a ∈ l) (hpa : p a = true) (huniq : ∀ b ∈ l, p b = true → b = a) :
    l.find? p = some a := by
  induction l with
  | nil => cases ha
  | cons x xs ih =>
    by_cases hx : p x = true
    · have hxa : x = a := huniq x (List.mem_cons_self x xs) hx
      subst hxa
      simp [List.find?, hx]
    · rw [List.find?_cons_of_neg _ (by simpa using hx)]
      refine ih ?_ (fun b hb hpb => huniq b (List.mem_cons_of_mem x hb) hpb)
      rcases List.mem_cons.mp ha with rfl | h'
      · exact absurd hpa hx
      · exact h'

/-- The filter document's two clauses, spelled out: an exact match on the
`categorie` field and a `$regex` match on the `theme` field, both required
when both clauses are present. -/
theorem matchesFilter_eq (f : Filter) (a : Article) :
    matchesFilter f a = true ↔
      (∀ c, f.categorie = some c → a.categorie = some c) ∧
      (∀ pat, f.themeRegexI = some pat →
        ∃ t, a.theme = some t ∧ regexSearchI pat.toList t.toList = true) := by
  obtain ⟨fc, ft⟩ := f
  cases fc <;> cases ft <;> cases hth : a.theme <;>
    simp [matchesFilter, hth, beq_iff_eq]

theorem get_article_cases (st : StoreState) (slug : String) (e : Nat × String) :
    get_article st slug = .error e ↔
      (st.findOneErr = some e.2 ∧ e.1 = 500) ∨
      (st.findOneErr = none ∧ st.docs.find? (fun a => a.slug == slug) = none ∧
        e = (404, notFoundMsg slug)) := by
  unfold get_article findOneBySlug
  cases e with
  | mk s m =>
    cases hfe : st.findOneErr with
    | some t => simp [eq_comm, and_comm]
    | none =>
      cases hfind : st.docs.find? (fun a => a.slug == slug) with
      | some a => simp
      | none => simp [eq_comm, and_comm]

/-! ### C1: limit resolution -/

/-- C1 (counterexample): the claim says every present `limit` input below 1
resolves to 10, but the source applies only `.min(50)` with no lower clamp:
the input 0 is used as the effective limit and is carried in the envelope. -/
theorem limit_not_clamped_below :
    effectiveLimit (some 0) = 0 ∧ ((0 : Int) ≠ 10) ∧
    list_articles stEmpty { page := none, limit := some 0, categorie := none, theme := none } =
      .ok { articles := [], total := 0, page := 1, limit := 0 } :=
  ⟨rfl, by decide, rfl⟩

/-- C1 (amended): the effective limit is `min(input, 50)` when the input is
present and 10 when it is absent — inputs above 50 are clamped to 50, absent
inputs default to 10, but inputs below 1 pass through unclamped — and the
`limit` field of the response envelope carries this effective value. -/
theorem limit_resolution (st : StoreState) (params : ListQuery)
    (resp : ListResponse) (h : list_articles st params = .ok resp) :
    resp.limit = effectiveLimit params.limit ∧
    (∀ v : Int, params.limit = some v → 50 < v → resp.limit = 50) ∧
    (params.limit = none → resp.limit = 10) ∧
    (∀ v : Int, params.limit = some v → v ≤ 50 → resp.limit = v) := by
  obtain ⟨-, -, rfl⟩ := (list_articles_ok_iff st params resp).mp h
  refine ⟨rfl, ?_, ?_, ?_⟩
  · intro v hv hlt
    simp [effectiveLimit, hv, min_eq_right (le_of_lt hlt)]
  · intro hv
    simp [effectiveLimit, hv]
  · intro v hv hle
    simp [effectiveLimit, hv, min_eq_left hle]

/-- Witness for C1 (amended) at `limit = some 60` on the empty store. -/
theorem limit_resolution_witness :
    ({ articles := [], total := 0, page := 1, limit := 50 } : ListResponse).limit =
      effectiveLimit (some 60) ∧
    (∀ v : Int, (some 60 : Option Int) = some v → 50 < v →
      ({ articles := [], total := 0, page := 1, limit := 50 } : ListResponse).limit = 50) ∧
    ((some 60 : Option Int) = none →
      ({ articles := [], total := 0, page := 1, limit := 50 } : ListResponse).limit = 10) ∧
    (∀ v : Int, (some 60 : Option Int) = some v → v ≤ 50 →
      ({ articles := [], total := 0, page := 1, limit := 50 } : ListResponse).limit = v) :=
  limit_resolution stEmpty { page := none, limit := some 60, categorie := none, theme := none }
    { articles := [], total := 0, page := 1, limit := 50 } rfl

/-! ### C3: the skip computation -/

/-- C3 (counterexample): for the accepted input `page=2, limit=-1` the source
computes `skip = (page - 1) * limit as u64`, where the `i64`-to-`u64` cast
wraps −1 to `2^64 − 1`, so `skip` is not `(page−1)·limit` as exact integer
arithmetic. -/
theorem skip_not_exact :
    effectivePage (some 2) = 2 ∧ effectiveLimit (some (-1)) = -1 ∧
    computeSkip 2 (-1) = 18446744073709551615 ∧
    ((computeSkip 2 (-1) : Int) ≠ ((2 : Int) - 1) * (-1)) :=
  ⟨rfl, rfl, rfl, by decide⟩

/-- C3 (amended): `skip = ((page−1) · (limit cast to u64)) mod 2^64`; whenever
the effective limit is nonnegative and the exact product `(page−1)·limit`
fits in 64 bits this equals `(page−1)·limit` exactly; for negative effective
limits (reachable because the limit has no lower clamp) the cast wraps and
exactness fails. -/
theorem skip_exact_when_nonneg (p : Option Nat) (l : Option Int)
    (hl : 0 ≤ effectiveLimit l)
    (hfit : (effectivePage p - 1) * (effectiveLimit l).toNat < 2 ^ 64) :
    (computeSkip (effectivePage p) (effectiveLimit l) : Int) =
      ((effectivePage p : Int) - 1) * effectiveLimit l := by
  have h50 : effectiveLimit l ≤ 50 := min_le_right _ _
  have hcast : u64cast (effectiveLimit l) = (effectiveLimit l).toNat := by
    unfold u64cast
    rw [Int.emod_eq_of_lt hl (by omega)]
  have h1 : computeSkip (effectivePage p) (effectiveLimit l) =
      (effectivePage p - 1) * (effectiveLimit l).toNat := by
    unfold computeSkip
    rw [hcast, Nat.mod_eq_of_lt hfit]
  have hp : 1 ≤ effectivePage p := le_max_right _ _
  rw [h1, Nat.cast_mul, Nat.cast_sub hp, Int.toNat_of_nonneg hl, Nat.cast_one]

/-- Witness for C3 (amended) at `page=3, limit=5`: skip is exactly 10. -/
theorem skip_exact_when_nonneg_witness :
    (computeSkip (effectivePage (some 3)) (effectiveLimit (some 5)) : Int) =
      ((effectivePage (some 3) : Int) - 1) * effectiveLimit (some 5) :=
  skip_exact_when_nonneg (some 3) (some 5) (by decide) (by decide)

/-! ### C4: total ignores pagination -/

/-- C4: the `total` field of every successful list response equals the count
of all documents matching the filter, and changing only the `page` and
`limit` inputs never changes `total`. -/
theorem total_ignores_pagination (st : StoreState) (params : ListQuery)
    (resp : ListResponse) (h : list_articles st params = .ok resp) :
    resp.total = st.docs.countP (fun a => matchesFilter (mkFilter params) a) ∧
    (∀ (p2 : Option Nat) (l2 : Option Int) (resp2 : ListResponse),
      list_articles st { params with page := p2, limit := l2 } = .ok resp2 →
      resp2.total = resp.total) := by
  obtain ⟨-, -, rfl⟩ := (list_articles_ok_iff st params resp).mp h
  refine ⟨rfl, ?_⟩
  intro p2 l2 resp2 h2
  obtain ⟨-, -, rfl⟩ := (list_articles_ok_iff _ _ _).mp h2
  rfl

/-- Witness for C4: with three matching documents, `page=2, limit=5` returns
an empty article list but `total = 3 ≠ 0`, the full filtered count. -/
theorem total_ignores_pagination_witness :
    list_articles st3 { page := some 2, limit := some 5, categorie := none, theme := none } =
      .ok { articles := [], total := 3, page := 2, limit := 5 } ∧
    ((3 : Nat) ≠ 0) ∧
    ({ articles := [], total := 3, page := 2, limit := 5 } : ListResponse).total =
      st3.docs.countP (fun a =>
        matchesFilter
          (mkFilter { page := some 2, limit := some 5, categorie := none, theme := none }) a) :=
  ⟨rfl, by decide,
    (total_ignores_pagination st3
      { page := some 2, limit := some 5, categorie := none, theme := none }
      { articles := [], total := 3, page := 2, limit := 5 } rfl).1⟩

/-! ### C6: page resolution -/

/-- C6: the effective page is at least 1 — a page input below 1 or absent
resolves to 1 — and the `page` field of the response envelope carries this
effective value. -/
theorem page_floor (st : StoreState) (params : ListQuery) (resp : ListResponse)
    (h : list_articles st params = .ok resp) :
    resp.page = effectivePage params.page ∧ 1 ≤ resp.page ∧
    (params.page = none → resp.page = 1) ∧
    (∀ v : Nat, params.page = some v → v < 1 → resp.page = 1) := by
  obtain ⟨-, -, rfl⟩ := (list_articles_ok_iff st params resp).mp h
  refine ⟨rfl, le_max_right _ _, ?_, ?_⟩
  · intro hv
    simp [effectivePage, hv]
  · intro v hv hlt
    have hv0 : v = 0 := Nat.lt_one_iff.mp hlt
    subst hv0
    simp [effectivePage, hv]

/-- Witness for C6 at `page = some 0` on the empty store. -/
theorem page_floor_witness :
    ({ articles := [], total := 0, page := 1, limit := 10 } : ListResponse).page =
      effectivePage (some 0) ∧
    1 ≤ ({ articles := [], total := 0, page := 1, limit := 10 } : ListResponse).page ∧
    ((some 0 : Option Nat) = none →
      ({ articles := [], total := 0, page := 1, limit := 10 } : ListResponse).page = 1) ∧
    (∀ v : Nat, (some 0 : Option Nat) = some v → v < 1 →
      ({ articles := [], total := 0, page := 1, limit := 10 } : ListResponse).page = 1) :=
  page_floor stEmpty { page := some 0, limit := none, categorie := none, theme := none }
    { articles := [], total := 0, page := 1, limit := 10 } rfl

/-! ### C2: the theme clause -/

/-- C2 (counterexample): the theme clause is `$regex`, not a substring test:
for input theme "a.c", the document with theme "abc" matches the filter and
is returned, although "abc" does not contain "a.c" as a substring (even
ignoring case). -/
theorem theme_regex_not_substring :
    containsI "a.c".toList "abc".toList = false ∧
    matchesFilter { categorie := none, themeRegexI := some "a.c" } artAbc = true ∧
    list_articles stAbc { page := none, limit := none, categorie := none, theme := some "a.c" } =
      .ok { articles := [toListItem artAbc], total := 1, page := 1, limit := 10 } :=
  ⟨rfl, rfl, rfl⟩

/-- C2 (amended): the theme clause is a case-insensitive regular-expression
match (`$regex` with option `i`); for theme inputs containing no regex
metacharacter it coincides with case-insensitive substring containment — in
particular theme "Roc" matches a document with theme "rock". -/
theorem theme_clause_regex (pat t : String) (a : Article)
    (hp : ∀ c ∈ pat.toList, c ∉ pcreMeta) (ht : a.theme = some t) :
    matchesFilter { categorie := none, themeRegexI := some pat } a =
      containsI pat.toList t.toList := by
  have hdot : '.' ∉ pat.toList := fun hc => (hp '.' hc) (by decide)
  simp only [matchesFilter, ht, Bool.true_and]
  exact regexSearchI_eq_containsI hdot t.toList

/-- Witness for C2 (amended): theme "Roc" against the stored theme "rock". -/
theorem theme_clause_regex_witness :
    matchesFilter { categorie := none, themeRegexI := some "Roc" } artA =
      containsI "Roc".toList "rock".toList ∧
    containsI "Roc".toList "rock".toList = true :=
  ⟨theme_clause_regex "Roc" "rock" artA (by decide) rfl, rfl⟩

/-! ### C5: the category clause -/

/-- C5: when a category parameter is present, every item of a successful
list response has exactly that category, and when a theme parameter is also
present the item's theme additionally matches the theme clause (the clauses
are conjoined). -/
theorem category_exact (st : StoreState) (params : ListQuery) (c : String)
    (resp : ListResponse) (hc : params.categorie = some c)
    (h : list_articles st params = .ok resp) :
    ∀ item ∈ resp.articles, item.categorie = some c ∧
      (∀ pat, params.theme = some pat →
        ∃ t, item.theme = some t ∧ regexSearchI pat.toList t.toList = true) := by
  obtain ⟨-, -, rfl⟩ := (list_articles_ok_iff st params resp).mp h
  intro item hitem
  simp only [List.mem_map] at hitem
  obtain ⟨b, ⟨a, ha, rfl⟩, rfl⟩ := hitem
  obtain ⟨-, hmatch⟩ := mem_pagedDocs ha
  obtain ⟨hcat, hth⟩ := (matchesFilter_eq _ _).mp hmatch
  refine ⟨hcat c hc, ?_⟩
  intro pat hpat
  obtain ⟨t, hat, hr⟩ := hth pat hpat
  exact ⟨t, hat, hr⟩

/-- Witness for C5 on `st3` with category "music", at the first returned
item: it carries exactly that category. -/
theorem category_exact_witness :
    (toListItem artB).categorie = some "music" ∧
    (∀ pat, (none : Option String) = some pat →
      ∃ t, (toListItem artB).theme = some t ∧
        regexSearchI pat.toList t.toList = true) :=
  category_exact st3 { page := none, limit := none, categorie := some "music", theme := none }
    "music"
    { articles := [toListItem artB, toListItem artA], total := 2, page := 1, limit := 10 }
    rfl rfl (toListItem artB) (by decide)

/-! ### C7: slug lookup -/

/-- C7: when exactly one document carries the requested slug, the lookup
returns that full document unchanged (no projection); when no document
carries it, the lookup returns a 404 whose error message contains the slug. -/
theorem get_by_slug_spec (st : StoreState) (slug : String) (a : Article)
    (hne : st.findOneErr = none) :
    ((a ∈ st.docs ∧ a.slug = slug ∧ (∀ b ∈ st.docs, b.slug = slug → b = a)) →
      get_article st slug = .ok a) ∧
    ((∀ b ∈ st.docs, b.slug ≠ slug) →
      get_article st slug = .error (404, notFoundMsg slug) ∧
      ∃ s1 s2, notFoundMsg slug = s1 ++ slug ++ s2) := by
  constructor
  · rintro ⟨ha, hs, huniq⟩
    have hfind : st.docs.find? (fun b => b.slug == slug) = some a :=
      find?_unique ha (by simpa using hs) (fun b hb hpb => huniq b hb (by simpa using hpb))
    unfold get_article findOneBySlug
    rw [hne, hfind]
  · intro hnone
    have hfind : st.docs.find? (fun b => b.slug == slug) = none :=
      List.find?_eq_none.mpr (fun b hb => by simpa using hnone b hb)
    refine ⟨?_, "Article " ++ squote, squote ++ " not found", ?_⟩
    · unfold get_article findOneBySlug
      rw [hne, hfind]
    · simp [notFoundMsg, String.append_assoc]

/-- Witness for C7: slug "b" is found in full, slug "zzz" yields the 404. -/
theorem get_by_slug_spec_witness :
    get_article st3 "b" = .ok artB ∧
    get_article st3 "zzz" = .error (404, notFoundMsg "zzz") :=
  ⟨(get_by_slug_spec st3 "b" artB rfl).1 ⟨by decide, by decide, by decide⟩,
   ((get_by_slug_spec st3 "zzz" artB rfl).2 (by decide)).1⟩

/-! ### C8: the only error kinds -/

/-- C8: every error either handler produces is a 500 carrying a store error
text verbatim, except the slug lookup's not-found case, which is a 404
naming the slug; no other error kind exists. -/
theorem error_kinds :
    (∀ (st : StoreState) (params : ListQuery) (e : Nat × String),
      list_articles st params = .error e →
        e.1 = 500 ∧ (st.countErr = some e.2 ∨ st.findErr = some e.2)) ∧
    (∀ (st : StoreState) (slug : String) (e : Nat × String),
      get_article st slug = .error e →
        (e.1 = 500 ∧ st.findOneErr = some e.2) ∨
        (e.1 = 404 ∧ e.2 = notFoundMsg slug)) := by
  constructor
  · intro st params e h
    obtain ⟨h1, h2⟩ := (list_articles_error_iff st params e).mp h
    exact ⟨h1, h2.elim Or.inl (fun hcf => Or.inr hcf.2)⟩
  · intro st slug e h
    obtain (⟨hf, h5⟩ | ⟨hf, -, he⟩) := (get_article_cases st slug e).mp h
    · exact Or.inl ⟨h5, hf⟩
    · subst he
      exact Or.inr ⟨rfl, rfl⟩

/-- Witness for C8 on a store whose operations fail. -/
theorem error_kinds_witness :
    (((500 : Nat), "boom").1 = 500 ∧
      (stErr.countErr = some ((500 : Nat), "boom").2 ∨
        stErr.findErr = some ((500 : Nat), "boom").2)) ∧
    ((((500 : Nat), "crash").1 = 500 ∧
        stErr.findOneErr = some ((500 : Nat), "crash").2) ∨
      (((500 : Nat), "crash").1 = 404 ∧
        ((500 : Nat), "crash").2 = notFoundMsg "slug-x")) :=
  ⟨error_kinds.1 stErr qNone (500, "boom") rfl,
   error_kinds.2 stErr "slug-x" (500, "crash") rfl⟩

/-! ### C9: sort, skip, limit, projection -/

/-- C9: the page of a successful list response is exactly the filtered
documents sorted by publication date descending with skip and limit applied
and projected to the summary fields, and in particular it is pairwise sorted
by publication date descending (a missing date sorting last). -/
theorem list_page_sorted (st : StoreState) (params : ListQuery)
    (resp : ListResponse) (h : list_articles st params = .ok resp) :
    resp.articles = ((pagedDocs st params).map projectSummary).map toListItem ∧
    resp.articles.Pairwise
      (fun x y => optStrLe y.date_publication x.date_publication = true) := by
  obtain ⟨-, -, rfl⟩ := (list_articles_ok_iff st params resp).mp h
  refine ⟨rfl, ?_⟩
  have hsorted : List.Pairwise dateDescR
      (List.insertionSort dateDescR (filteredDocs st params)) :=
    List.sorted_insertionSort dateDescR _
  have hdrop : List.Pairwise dateDescR
      ((List.insertionSort dateDescR (filteredDocs st params)).drop
        (computeSkip (effectivePage params.page) (effectiveLimit params.limit))) :=
    List.Pairwise.sublist (List.drop_sublist _ _) hsorted
  have hlim : List.Pairwise dateDescR (pagedDocs st params) := by
    unfold pagedDocs applyLimit
    split
    · exact hdrop
    · exact List.Pairwise.sublist (List.take_sublist _ _) hdrop
  have hm1 : ((pagedDocs st params).map projectSummary).Pairwise dateDescR :=
    List.Pairwise.map _ (fun a b hab => hab) hlim
  exact List.Pairwise.map _ (fun a b hab => hab) hm1

/-- Witness for C9 on `st3` with no parameters: three items, most recent
first, the undated document last. -/
theorem list_page_sorted_witness :
    resp3All.articles = ((pagedDocs st3 qNone).map projectSummary).map toListItem ∧
    resp3All.articles.Pairwise
      (fun x y => optStrLe y.date_publication x.date_publication = true) :=
  list_page_sorted st3 qNone resp3All rfl

/-! ### C10: exactly the seven summary fields -/

/-- C10: every item of a successful list response serializes to exactly the
seven summary keys, in order; the store-assigned `_id`, `contenu` and the
SEO fields never appear. -/
theorem list_item_fields_exact (st : StoreState) (params : ListQuery)
    (resp : ListResponse) (item : ArticleListItem)
    (_h : list_articles st params = .ok resp) (_hm : item ∈ resp.articles) :
    (serializeListItem item).map Prod.fst =
      ["slug", "titre", "petit_description", "theme", "categorie", "photo",
       "date_publication"] ∧
    "_id" ∉ (serializeListItem item).map Prod.fst ∧
    "contenu" ∉ (serializeListItem item).map Prod.fst ∧
    "seo_title" ∉ (serializeListItem item).map Prod.fst ∧
    "seo_description" ∉ (serializeListItem item).map Prod.fst ∧
    "seo_keywords" ∉ (serializeListItem item).map Prod.fst := by
  refine ⟨rfl, ?_, ?_, ?_, ?_, ?_⟩ <;> simp [serializeListItem]

/-- Witness for C10 at the first item of the full listing of `st3`. -/
theorem list_item_fields_exact_witness :
    (serializeListItem (toListItem artB)).map Prod.fst =
      ["slug", "titre", "petit_description", "theme", "categorie", "photo",
       "date_publication"] ∧
    "_id" ∉ (serializeListItem (toListItem artB)).map Prod.fst ∧
    "contenu" ∉ (serializeListItem (toListItem artB)).map Prod.fst ∧
    "seo_title" ∉ (serializeListItem (toListItem artB)).map Prod.fst ∧
    "seo_description" ∉ (serializeListItem (toListItem artB)).map Prod.fst ∧
    "seo_keywords" ∉ (serializeListItem (toListItem artB)).map Prod.fst :=
  list_item_fields_exact st3 qNone resp3All (toListItem artB) rfl (by decide)

end MeetVoice
